import Mathlib

/-!
# Verification of `train_utils.py` (UnsuperPoint training driver)

Shallow embedding of the training utilities module: optimizer factory,
learning-rate schedule builder, epoch runner iteration/reporting structure,
and checkpoint rotation.  Python floats are modelled as exact rationals `ℚ`;
fallible code paths return `Except String`.
-/

namespace TrainUtils

/-- The configuration record `optim_cfg` (dict keys used by `train_utils.py`):
`name, LR, weight_decay, momentum, decay_step_list, LR_decay, LR_clip,
LR_warmup, WARMUP_EPOCH, MOMS, div_factors, pct_start, GRAD_NORM_CLIP`. -/
structure OptimCfg where
  name : String
  LR : ℚ
  weight_decay : ℚ
  momentum : ℚ
  decay_step_list : List ℚ
  LR_decay : ℚ
  LR_clip : ℚ
  LR_warmup : Bool
  WARMUP_EPOCH : ℕ
  MOMS : ℚ × ℚ
  div_factors : ℚ
  pct_start : ℚ
  GRAD_NORM_CLIP : ℚ
  deriving DecidableEq

/-- The kind of gradient-descent optimizer actually constructed. -/
inductive OptKind where
  | adam
  | sgd
  deriving DecidableEq, Repr

/-- A constructed optimizer: the parameters `build_optimizer` binds into the
torch optimizer object (Adam takes no momentum argument). -/
structure Optimizer where
  kind : OptKind
  lr : ℚ
  weight_decay : ℚ
  momentum : Option ℚ
  deriving DecidableEq, Repr

/-- `build_optimizer` (train_utils.py lines 16-26): `adam` and `sgd` are
constructed; every other name reaches the `else: raise NotImplementedError`. -/
def build_optimizer (cfg : OptimCfg) : Except String Optimizer :=
  if cfg.name = "adam" then
    .ok ⟨.adam, cfg.LR, cfg.weight_decay, none⟩
  else if cfg.name = "sgd" then
    .ok ⟨.sgd, cfg.LR, cfg.weight_decay, some cfg.momentum⟩
  else
    .error "NotImplementedError"

/-- `decay_epochs = [x * total_epochs for x in optim_cfg['decay_step_list']]`
(train_utils.py line 29). -/
def decayEpochs (cfg : OptimCfg) (total_epochs : ℕ) : List ℚ :=
  cfg.decay_step_list.map (fun x => x * (total_epochs : ℚ))

/-- The local function `lr_lbmd` of `build_scheduler` (train_utils.py lines
30-35): starting from `cur_decay = 1`, multiply by `LR_decay` once for every
decay boundary with `cur_epoch >= decay_epoch`, then floor the result at
`LR_clip / LR`. -/
def lr_lbmd (cfg : OptimCfg) (total_epochs : ℕ) (cur_epoch : ℚ) : ℚ :=
  max
    (List.foldl
      (fun cur_decay decay_epoch =>
        if decay_epoch ≤ cur_epoch then cur_decay * cfg.LR_decay else cur_decay)
      1 (decayEpochs cfg total_epochs))
    (cfg.LR_clip / cfg.LR)

/-- State of a `torch.optim.lr_scheduler.LambdaLR`: the epoch counter
`last_epoch` and the learning rate currently installed in the optimizer. -/
structure LambdaLRState where
  last_epoch : ℤ
  lr : ℚ
  deriving DecidableEq

/-- One `scheduler.step()` of `LambdaLR`: increment `last_epoch` and set
`lr = base_lr * lr_lambda(last_epoch)` (the multiplier is re-evaluated from
the counter each time, not accumulated). -/
def LambdaLR.step (base : ℚ) (lam : ℚ → ℚ) (s : LambdaLRState) : LambdaLRState :=
  ⟨s.last_epoch + 1, base * lam ((s.last_epoch + 1 : ℤ) : ℚ)⟩

/-- Constructing `LambdaLR(optimizer, lr_lambda, last_epoch)`: the PyTorch
`_LRScheduler.__init__` stores `last_epoch` and then performs one initial
`self.step()` (so the counter ends at `last_epoch + 1` and the installed rate
is `base_lr * lr_lambda(last_epoch + 1)`; with the default `last_epoch = -1`
the counter ends at `0` and the rate at `base_lr * lr_lambda(0)`). -/
def LambdaLR.init (base : ℚ) (lam : ℚ → ℚ) (last_epoch : ℤ) : LambdaLRState :=
  LambdaLR.step base lam ⟨last_epoch, base⟩

/-- Modelled from the spec: the `OneCycle` class is referenced by
`build_scheduler` but its definition is not part of `src/`; we record the
arguments `build_scheduler` passes to its constructor
(`total_steps, LR, MOMS, div_factors, pct_start`). -/
structure OneCycleSched where
  total_steps : ℕ
  lr : ℚ
  moms : ℚ × ℚ
  div_factor : ℚ
  pct_start : ℚ
  deriving DecidableEq

/-- Modelled from the spec: the `CosineWarmupLR` class is referenced by
`build_scheduler` but its definition is not part of `src/`; we record the
constructor arguments (`T_max`, `eta_min`). -/
structure CosineWarmup where
  t_max : ℕ
  eta_min : ℚ
  deriving DecidableEq

/-- The primary schedule returned by `build_scheduler`. -/
inductive Scheduler where
  | oneCycle (s : OneCycleSched)
  | lambdaLR (s : LambdaLRState)
  deriving DecidableEq

/-- The pair `(lr_scheduler, lr_warmup_scheduler)` returned by
`build_scheduler`. -/
structure SchedulerPair where
  primary : Scheduler
  warmup : Option CosineWarmup
  deriving DecidableEq

/-- Python `len(...)` applied to the integer `total_iters_each_epoch`
(train_utils.py line 48): an `int` has no `__len__`, so this raises
`TypeError`. -/
def pyLenInt (_n : ℕ) : Except String ℕ :=
  .error "TypeError: object of type int has no len()"

/-- `build_scheduler` (train_utils.py lines 28-52).  `base` is the
optimizer's initial learning rate (`initial_lr`, used by `LambdaLR` as
`base_lr`).  For `adam_onecycle` a `OneCycle` schedule over
`total_iters_each_epoch * total_epochs` steps is returned with no warmup
schedule; otherwise a `LambdaLR` over `lr_lbmd` is built, and if
`LR_warmup` is set the code computes `len(total_iters_each_epoch)` on an
integer, which raises `TypeError`. -/
def build_scheduler (base : ℚ) (total_iters_each_epoch total_epochs : ℕ)
    (last_epoch : ℤ) (cfg : OptimCfg) : Except String SchedulerPair :=
  let total_steps := total_iters_each_epoch * total_epochs
  if cfg.name = "adam_onecycle" then
    .ok ⟨.oneCycle ⟨total_steps, cfg.LR, cfg.MOMS, cfg.div_factors, cfg.pct_start⟩, none⟩
  else
    let st := LambdaLR.init base (lr_lbmd cfg total_epochs) last_epoch
    if cfg.LR_warmup then
      match pyLenInt total_iters_each_epoch with
      | .error e => .error e
      | .ok n =>
          .ok ⟨.lambdaLR st, some ⟨cfg.WARMUP_EPOCH * n, cfg.LR / cfg.div_factors⟩⟩
    else
      .ok ⟨.lambdaLR st, none⟩

/-- Modelled from the spec: the learning rate of the `OneCycle` schedule at
(fractional) step `s` — a linear ramp from `lr/div_factor` up to `lr` over the
first `pct_start` fraction of `total_steps`, then a linear ramp back down to
`lr/div_factor` over the remainder. -/
def oneCycleLRAt (sch : OneCycleSched) (s : ℚ) : ℚ :=
  let low := sch.lr / sch.div_factor
  let peak := sch.pct_start * (sch.total_steps : ℚ)
  if s ≤ peak then
    low + (sch.lr - low) * (s / peak)
  else
    sch.lr + (low - sch.lr) * ((s - peak) / ((sch.total_steps : ℚ) - peak))

/-- Modelled from the spec: the momentum of the `OneCycle` schedule at step
`s` — moves from `moms.1` down to `moms.2` while the rate ramps up, and back,
i.e. inversely to the learning rate. -/
def oneCycleMomAt (sch : OneCycleSched) (s : ℚ) : ℚ :=
  let peak := sch.pct_start * (sch.total_steps : ℚ)
  if s ≤ peak then
    sch.moms.1 + (sch.moms.2 - sch.moms.1) * (s / peak)
  else
    sch.moms.2 + (sch.moms.1 - sch.moms.2) * ((s - peak) / ((sch.total_steps : ℚ) - peak))

/-- A checkpoint file on disk: its name (`checkpoint_epoch_<N>.pth`) and its
last-modified time. -/
structure CkptFile where
  name : String
  mtime : ℕ
  deriving DecidableEq, Repr

/-- Insert a file into a list that is already sorted by ascending mtime. -/
def insertByMtime (f : CkptFile) : List CkptFile → List CkptFile
  | [] => [f]
  | g :: gs => if f.mtime ≤ g.mtime then f :: g :: gs else g :: insertByMtime f gs

/-- `ckpt_list.sort(key=os.path.getmtime)` (train_utils.py line 155): sort the
globbed checkpoint files by ascending last-modified time. -/
def sortByMtime : List CkptFile → List CkptFile
  | [] => []
  | f :: fs => insertByMtime f (sortByMtime fs)

/-- One checkpoint save with rotation (train_utils.py lines 152-164): glob the
existing `checkpoint_epoch_*.pth` files (`dir`), sort by mtime ascending, and
if at least `max_ckpt_save_num` are present delete the oldest
`count - max_ckpt_save_num + 1`; then write the new checkpoint file.
(For `max_ckpt_save_num ≥ 1` the deleted indices are exactly the first
`count - max_ckpt_save_num + 1` entries of the sorted list.) -/
def ckptRotateSave (max_ckpt_save_num : ℕ) (dir : List CkptFile)
    (new : CkptFile) : List CkptFile :=
  let sorted := sortByMtime dir
  let kept :=
    if max_ckpt_save_num ≤ sorted.length then
      sorted.drop (sorted.length - max_ckpt_save_num + 1)
    else
      sorted
  kept ++ [new]

/-- Result of the batch loop of `train_one_epoch`: how many batches were
processed, how many times the loader iterator was silently re-created
(`print('new iters')`), and the final position of the iterator. -/
structure EpochLoopResult where
  batches : ℕ
  restarts : ℕ
  pos : ℕ
  deriving DecidableEq, Repr

/-- The batch loop of `train_one_epoch` (train_utils.py lines 63-69) over a
loader of length `L`: at each of the `t` remaining iterations, `next` the
iterator at position `p` (`p < L`); on `StopIteration` build a fresh iterator
and `next` it once (consuming item 0) — and if even that raises (`L = 0`),
the `StopIteration` escapes unhandled. -/
def epochLoop (L : ℕ) : ℕ → ℕ → ℕ → ℕ → Except String EpochLoopResult
  | 0, p, r, b => .ok ⟨b, r, p⟩
  | t + 1, p, r, b =>
    if p < L then
      epochLoop L t (p + 1) r (b + 1)
    else if 0 < L then
      epochLoop L t 1 (r + 1) (b + 1)
    else
      .error "StopIteration"

/-- The loader-iteration behaviour of `train_one_epoch` (train_utils.py lines
56-69): the iterator passed in (at position `p0`) is replaced by a fresh one
when `total_it_each_epoch == len(train_loader)`, then `total_it_each_epoch`
batches are drawn with silent restarts on exhaustion. -/
def train_one_epoch_loader (L total_it_each_epoch p0 : ℕ) :
    Except String EpochLoopResult :=
  epochLoop L total_it_each_epoch (if total_it_each_epoch = L then 0 else p0) 0 0

/-- An observable side effect of one batch of `train_one_epoch`. -/
inductive Event where
  | addImage (tag : String)
  | addScalar (tag : String)
  | pbarUpdate
  | pbarSetPostfix
  | tbarSetPostfix
  | tbarRefresh
  | modelTrain
  | zeroGrad
  | forward
  | backward
  | clipGradNorm
  | optimizerStep
  | accumulate
  deriving DecidableEq, Repr

/-- `e` is a call on the observability sink (`tb_log`). -/
def Event.isSink : Event → Bool
  | .addImage _ => true
  | .addScalar _ => true
  | _ => false

/-- `e` is a console-progress update (`pbar` / `tbar`). -/
def Event.isConsole : Event → Bool
  | .pbarUpdate => true
  | .pbarSetPostfix => true
  | .tbarSetPostfix => true
  | .tbarRefresh => true
  | _ => false

/-- `e` is part of the per-batch computation (forward, backward, clip, step,
counter increment). -/
def Event.isCompute : Event → Bool
  | .modelTrain => true
  | .zeroGrad => true
  | .forward => true
  | .backward => true
  | .clipGradNorm => true
  | .optimizerStep => true
  | .accumulate => true
  | _ => false

/-- The per-batch computation sequence (train_utils.py lines 91-100),
performed identically on every rank. -/
def computeEvents : List Event :=
  [.modelTrain, .zeroGrad, .forward, .backward, .clipGradNorm, .optimizerStep,
   .accumulate]

/-- The seven scalar writes of the rank-0 reporting block (train_utils.py
lines 110-117). -/
def rank0ScalarEvents : List Event :=
  [.addScalar "train_loss", .addScalar "learning_rate",
   .addScalar "key_dist_loss", .addScalar "Uni_xy", .addScalar "desc_loss",
   .addScalar "decoor_loss", .addScalar "key_dist"]

/-- The observable effects of one batch of `train_one_epoch` (train_utils.py
lines 63-117) as a function of the rank, whether the sink `tb_log` was
passed (`tb`), and the batch index `cur_it`:
* lines 71-76: on rank 0 at `cur_it = 0`, two image grids are written to
  `tb_log` with no `None` guard — if `tb_log is None` this is
  `None.add_image(...)`, an `AttributeError`;
* lines 87-88: if `tb_log is not None`, a `learning_rate` scalar is written —
  on every rank, this line is not gated on `rank == 0`;
* lines 91-100: the computation (train/zero_grad/forward/backward/clip/step
  and the counter increment), on every rank;
* lines 104-117: progress-bar updates and seven scalar writes, only on
  rank 0 (the scalars only if `tb_log is not None`). -/
def batchEvents (rank : ℕ) (tb : Bool) (cur_it : ℕ) : Except String (List Event) :=
  match (if rank = 0 ∧ cur_it = 0 then
          if tb then
            Except.ok [Event.addImage "original_images", Event.addImage "homography"]
          else
            Except.error "AttributeError: NoneType object has no attribute add_image"
        else Except.ok ([] : List Event)) with
  | .error e => .error e
  | .ok imgEvents =>
    let lrEvent := if tb then [Event.addScalar "learning_rate"] else []
    let report :=
      if rank = 0 then
        [Event.pbarUpdate, Event.pbarSetPostfix, Event.tbarSetPostfix,
         Event.tbarRefresh] ++ (if tb then rank0ScalarEvents else [])
      else []
    .ok (imgEvents ++ lrEvent ++ computeEvents ++ report)

/-- The concatenated effect trace of the batch loop of `train_one_epoch` over
batch indices `0, …, total_it - 1`. -/
def epochEvents (rank : ℕ) (tb : Bool) : ℕ → Except String (List Event)
  | 0 => .ok []
  | t + 1 =>
    match epochEvents rank tb t with
    | .error e => .error e
    | .ok acc =>
      match batchEvents rank tb t with
      | .error e => .error e
      | .ok l => .ok (acc ++ l)

/-- A sample configuration with `name = "adam"` (warmup disabled). -/
def sampleCfg : OptimCfg :=
  ⟨"adam", 1/1000, 1/10000, 9/10, [1/2, 3/4], 1/10, 1/10000000, false, 1,
   (19/20, 17/20), 10, 2/5, 4⟩

/-- A sample configuration with `name = "sgd"`. -/
def sampleSgdCfg : OptimCfg :=
  ⟨"sgd", 1/1000, 1/10000, 9/10, [1/2, 3/4], 1/10, 1/10000000, false, 1,
   (19/20, 17/20), 10, 2/5, 4⟩

/-- A sample configuration with `name = "adam_onecycle"`. -/
def sampleOneCycleCfg : OptimCfg :=
  ⟨"adam_onecycle", 1/1000, 1/10000, 9/10, [1/2, 3/4], 1/10, 1/10000000, false, 1,
   (19/20, 17/20), 10, 2/5, 4⟩

/-- A sample configuration with `name = "adam"` and `LR_warmup = True`. -/
def sampleWarmupCfg : OptimCfg :=
  ⟨"adam", 1/1000, 1/10000, 9/10, [1/2, 3/4], 1/10, 1/10000000, true, 1,
   (19/20, 17/20), 10, 2/5, 4⟩

/-- A configuration whose single decay boundary sits at epoch
`(1/2) * 10 = 5` (used to exhibit the resume off-by-one). -/
def resumeCfg : OptimCfg :=
  ⟨"adam", 1, 1/10000, 9/10, [1/2], 1/10, 0, false, 1,
   (19/20, 17/20), 10, 2/5, 4⟩

/-- Sample checkpoint file written first. -/
def ckA : CkptFile := ⟨"checkpoint_epoch_1.pth", 1⟩

/-- Sample checkpoint file written second. -/
def ckB : CkptFile := ⟨"checkpoint_epoch_2.pth", 2⟩

/-- Sample checkpoint file written third. -/
def ckC : CkptFile := ⟨"checkpoint_epoch_3.pth", 3⟩

/-- The decay loop of `lr_lbmd` multiplies the accumulator by `r` once per
list entry `d` with `d ≤ E`, so it computes `a * r ^ (count of such entries)`. -/
theorem foldl_decay_pow (r E : ℚ) :
    ∀ (l : List ℚ) (a : ℚ),
      List.foldl (fun c d => if d ≤ E then c * r else c) a l
        = a * r ^ (l.countP fun d => decide (d ≤ E))
  | [], a => by simp
  | d :: l, a => by
    by_cases h : d ≤ E
    · simp only [List.foldl_cons, if_pos h, List.countP_cons,
        foldl_decay_pow r E l (a * r)]
      simp only [decide_eq_true h, if_true, pow_succ]
      ring
    · simp only [List.foldl_cons, if_neg h, List.countP_cons,
        foldl_decay_pow r E l a]
      simp [h]

/-- `countP` is monotone in the predicate. -/
theorem countP_le_countP_of_imp {α : Type} (p q : α → Bool)
    (h : ∀ a, p a = true → q a = true) :
    ∀ l : List α, l.countP p ≤ l.countP q := by
  intro l
  induction l with
  | nil => simp
  | cons a l ih =>
    simp only [List.countP_cons]
    by_cases hp : p a = true
    · simp only [hp, h a hp, if_pos]
      exact Nat.add_le_add_right ih 1
    · simp only [hp, if_neg, if_false, Nat.add_zero]
      exact le_trans ih (Nat.le_add_right _ _)

/-- Closed form of `lr_lbmd`: the multiplier at epoch `E` is
`max (LR_decay ^ k) (LR_clip / LR)` with `k` the number of decay boundaries
`≤ E`. -/
theorem lr_lbmd_eq_pow_max (cfg : OptimCfg) (total_epochs : ℕ) (E : ℚ) :
    lr_lbmd cfg total_epochs E
      = max (cfg.LR_decay ^ ((decayEpochs cfg total_epochs).countP fun d => decide (d ≤ E)))
          (cfg.LR_clip / cfg.LR) := by
  unfold lr_lbmd
  rw [foldl_decay_pow, one_mul]

/-- C1: for every epoch index `E ≥ 0` (indeed every rational `E`) and every
configuration, the step-decay multiplier computed by `build_scheduler`'s
lambda `lr_lbmd` equals `max (LR_decay ^ k) (LR_clip / LR)`, where `k` is the
number of boundaries `decay_fraction * total_epochs` that are `≤ E`. -/
theorem step_decay_multiplier_closed_form (cfg : OptimCfg) (total_epochs : ℕ)
    (E : ℚ) :
    lr_lbmd cfg total_epochs E
      = max (cfg.LR_decay ^ ((decayEpochs cfg total_epochs).countP fun d => decide (d ≤ E)))
          (cfg.LR_clip / cfg.LR) :=
  lr_lbmd_eq_pow_max cfg total_epochs E

/-- C8: for every configuration with `LR_decay ∈ (0, 1]` and any
`decay_step_list`, the step-decay multiplier is a non-increasing function of
the epoch and never falls below `LR_clip / LR`. -/
theorem step_decay_antitone_and_floored (cfg : OptimCfg) (total_epochs : ℕ)
    (h0 : 0 < cfg.LR_decay) (h1 : cfg.LR_decay ≤ 1) :
    (∀ E1 E2 : ℚ, E1 ≤ E2 →
        lr_lbmd cfg total_epochs E2 ≤ lr_lbmd cfg total_epochs E1)
    ∧ ∀ E : ℚ, cfg.LR_clip / cfg.LR ≤ lr_lbmd cfg total_epochs E := by
  constructor
  · intro E1 E2 hE
    rw [lr_lbmd_eq_pow_max, lr_lbmd_eq_pow_max]
    apply max_le_max _ le_rfl
    apply pow_le_pow_of_le_one h0.le h1
    apply countP_le_countP_of_imp
    intro d hd
    simp only [decide_eq_true_eq] at hd ⊢
    exact hd.trans hE
  · intro E
    rw [lr_lbmd_eq_pow_max]
    exact le_max_right _ _

/-- Witness for C8 at the sample configuration and epochs `30 ≤ 50`. -/
theorem step_decay_antitone_and_floored_witness :
    lr_lbmd sampleCfg 80 50 ≤ lr_lbmd sampleCfg 80 30
    ∧ sampleCfg.LR_clip / sampleCfg.LR ≤ lr_lbmd sampleCfg 80 50 := by
  have h := step_decay_antitone_and_floored sampleCfg 80
    (by norm_num [sampleCfg]) (by norm_num [sampleCfg])
  exact ⟨h.1 30 50 (by norm_num), h.2 50⟩

/-- C7: `build_optimizer` returns an Adam optimizer (configured learning rate
and weight decay) for kind `adam`, an SGD optimizer (learning rate, momentum,
weight decay) for kind `sgd`, and for every other kind — including the
recognized name `adam_onecycle` — fails with `NotImplementedError` before any
training occurs. -/
theorem build_optimizer_cases (cfg : OptimCfg) :
    (cfg.name = "adam" →
        build_optimizer cfg = .ok ⟨.adam, cfg.LR, cfg.weight_decay, none⟩)
    ∧ (cfg.name = "sgd" →
        build_optimizer cfg = .ok ⟨.sgd, cfg.LR, cfg.weight_decay, some cfg.momentum⟩)
    ∧ (cfg.name ≠ "adam" → cfg.name ≠ "sgd" →
        build_optimizer cfg = .error "NotImplementedError")
    ∧ (cfg.name = "adam_onecycle" →
        build_optimizer cfg = .error "NotImplementedError") := by
  refine ⟨?_, ?_, ?_, ?_⟩
  · intro h
    simp [build_optimizer, h]
  · intro h
    simp [build_optimizer, h]
  · intro h1 h2
    simp [build_optimizer, h1, h2]
  · intro h
    simp [build_optimizer, h]

/-- Witness for C7 at the three sample configurations. -/
theorem build_optimizer_cases_witness :
    build_optimizer sampleCfg
      = .ok ⟨.adam, sampleCfg.LR, sampleCfg.weight_decay, none⟩
    ∧ build_optimizer sampleSgdCfg
      = .ok ⟨.sgd, sampleSgdCfg.LR, sampleSgdCfg.weight_decay, some sampleSgdCfg.momentum⟩
    ∧ build_optimizer sampleOneCycleCfg = .error "NotImplementedError" :=
  ⟨(build_optimizer_cases sampleCfg).1 rfl,
   (build_optimizer_cases sampleSgdCfg).2.1 rfl,
   (build_optimizer_cases sampleOneCycleCfg).2.2.2 rfl⟩

/-- Iterating `LambdaLR.step` `n + 1` times advances the counter by `n + 1`
and installs the rate for the resulting counter. -/
theorem LambdaLR.step_iterate (base : ℚ) (lam : ℚ → ℚ) :
    ∀ (n : ℕ) (e : ℤ) (x : ℚ),
      (LambdaLR.step base lam)^[n + 1] ⟨e, x⟩
        = ⟨e + n + 1, base * lam ((e + n + 1 : ℤ) : ℚ)⟩
  | 0, e, x => by
    simp [LambdaLR.step]
  | n + 1, e, x => by
    rw [Function.iterate_succ_apply]
    have hstep : LambdaLR.step base lam ⟨e, x⟩
        = ⟨e + 1, base * lam ((e + 1 : ℤ) : ℚ)⟩ := rfl
    rw [hstep, LambdaLR.step_iterate base lam n (e + 1)]
    have hc : ((n + 1 : ℕ) : ℤ) = (n : ℤ) + 1 := by push_cast; ring
    have he : e + 1 + (n : ℤ) + 1 = e + ((n : ℤ) + 1) + 1 := by ring
    rw [hc, he]

/-- C2 (amended): building the step-decay schedule resuming at
`last_epoch = K` yields exactly the state reached by building it from scratch
(`last_epoch = -1`) and stepping it `K + 1` times — one more than the claim
states, because the `LambdaLR` constructor itself performs one initial
`step()`.  The rate is a pure function of the internal epoch counter, so
there is no drift. -/
theorem lambda_lr_resume_is_step_succ (cfg : OptimCfg) (total_epochs : ℕ)
    (base : ℚ) (K : ℕ) :
    LambdaLR.init base (lr_lbmd cfg total_epochs) K
      = (LambdaLR.step base (lr_lbmd cfg total_epochs))^[K + 1]
          (LambdaLR.init base (lr_lbmd cfg total_epochs) (-1)) := by
  have hinit : LambdaLR.init base (lr_lbmd cfg total_epochs) (-1)
      = (⟨0, base * lr_lbmd cfg total_epochs ((0 : ℤ) : ℚ)⟩ : LambdaLRState) := by
    show (⟨(-1 : ℤ) + 1, _⟩ : LambdaLRState) = _
    norm_num
  rw [hinit, LambdaLR.step_iterate]
  show (⟨(K : ℤ) + 1, base * lr_lbmd cfg total_epochs (((K : ℤ) + 1 : ℤ) : ℚ)⟩ : LambdaLRState) = _
  norm_num

/-- C2 counterexample: with a decay boundary at epoch `5` (`resumeCfg`,
`total_epochs = 10`, `base_lr = 1`), building from scratch and stepping `4`
times leaves the rate at `1` (counter `4`, before the boundary), while
building with `last_epoch = 4` installs rate `1/10` (counter `5`, past the
boundary) — so resuming at `K` does not equal stepping `K` times from
scratch. -/
theorem lambda_lr_resume_counterexample :
    ((LambdaLR.step 1 (lr_lbmd resumeCfg 10))^[4]
        (LambdaLR.init 1 (lr_lbmd resumeCfg 10) (-1))).lr = 1
    ∧ (LambdaLR.init 1 (lr_lbmd resumeCfg 10) 4).lr = 1 / 10 := by
  have h4 : lr_lbmd resumeCfg 10 4 = 1 := by
    simp only [lr_lbmd, decayEpochs, resumeCfg, List.map_cons, List.map_nil,
      List.foldl_cons, List.foldl_nil]
    norm_num
  have h5 : lr_lbmd resumeCfg 10 5 = 1 / 10 := by
    simp only [lr_lbmd, decayEpochs, resumeCfg, List.map_cons, List.map_nil,
      List.foldl_cons, List.foldl_nil]
    norm_num
  constructor
  · have e1 : (LambdaLR.step 1 (lr_lbmd resumeCfg 10))^[4]
        (LambdaLR.init 1 (lr_lbmd resumeCfg 10) (-1))
        = (LambdaLR.step 1 (lr_lbmd resumeCfg 10))^[3 + 1]
            (⟨(-1 : ℤ) + 1, 1 * lr_lbmd resumeCfg 10 (((-1 : ℤ) + 1 : ℤ) : ℚ)⟩ : LambdaLRState) :=
      rfl
    rw [e1, LambdaLR.step_iterate]
    show 1 * lr_lbmd resumeCfg 10 (((-1 : ℤ) + 1 + 3 + 1 : ℤ) : ℚ) = 1
    have hc : (((-1 : ℤ) + 1 + 3 + 1 : ℤ) : ℚ) = 4 := by norm_num
    rw [hc, one_mul, h4]
  · show 1 * lr_lbmd resumeCfg 10 (((4 : ℤ) + 1 : ℤ) : ℚ) = 1 / 10
    have hc : (((4 : ℤ) + 1 : ℤ) : ℚ) = 5 := by norm_num
    rw [hc, one_mul, h5]

/-- At step `0` the one-cycle rate is the floor `lr / div_factor`. -/
theorem oneCycleLRAt_zero (sch : OneCycleSched)
    (hpeak : 0 ≤ sch.pct_start * (sch.total_steps : ℚ)) :
    oneCycleLRAt sch 0 = sch.lr / sch.div_factor := by
  simp [oneCycleLRAt, hpeak]

/-- At the peak step `pct_start * total_steps` the one-cycle rate is `lr`. -/
theorem oneCycleLRAt_peak (sch : OneCycleSched)
    (hpeak : 0 < sch.pct_start * (sch.total_steps : ℚ)) :
    oneCycleLRAt sch (sch.pct_start * (sch.total_steps : ℚ)) = sch.lr := by
  simp only [oneCycleLRAt, le_refl, if_pos]
  rw [div_self (ne_of_gt hpeak)]
  ring

/-- At the final step `total_steps` the one-cycle rate returns to
`lr / div_factor`. -/
theorem oneCycleLRAt_total (sch : OneCycleSched)
    (hlt : sch.pct_start * (sch.total_steps : ℚ) < (sch.total_steps : ℚ)) :
    oneCycleLRAt sch (sch.total_steps : ℚ) = sch.lr / sch.div_factor := by
  simp only [oneCycleLRAt, not_le.mpr hlt, if_neg, if_false]
  rw [div_self (sub_ne_zero_of_ne (ne_of_gt hlt))]
  ring

/-- The one-cycle momentum is an affine, direction-reversed function of the
one-cycle rate: `(mom s - m₀) * (lr - low) = (m₁ - m₀) * (rate s - low)`
(`low = lr / div_factor`), at every step `s` and with no side conditions. -/
theorem oneCycleMomAt_inverse_affine (sch : OneCycleSched) (s : ℚ) :
    (oneCycleMomAt sch s - sch.moms.1) * (sch.lr - sch.lr / sch.div_factor)
      = (sch.moms.2 - sch.moms.1)
        * (oneCycleLRAt sch s - sch.lr / sch.div_factor) := by
  by_cases hs : s ≤ sch.pct_start * (sch.total_steps : ℚ)
  · simp only [oneCycleMomAt, oneCycleLRAt, if_pos hs]
    ring
  · simp only [oneCycleMomAt, oneCycleLRAt, if_neg hs]
    ring

/-- C4 (spec-modelled `OneCycle`): when the configured kind is
`adam_onecycle`, `build_scheduler` returns a one-cycle schedule spanning
`total_steps = total_iters_each_epoch * total_epochs` with no warmup
schedule; the modelled one-cycle rate is `LR / div_factors` at step `0`,
`LR` at step `pct_start * total_steps`, and `LR / div_factors` again at the
final step, while the momentum moves affinely in the opposite direction of
the rate. -/
theorem build_scheduler_one_cycle (base : ℚ) (iters epochs : ℕ) (le : ℤ)
    (cfg : OptimCfg) (hname : cfg.name = "adam_onecycle")
    (hT : 0 < iters * epochs) (hp0 : 0 < cfg.pct_start)
    (hp1 : cfg.pct_start < 1) :
    build_scheduler base iters epochs le cfg
      = .ok ⟨.oneCycle ⟨iters * epochs, cfg.LR, cfg.MOMS, cfg.div_factors, cfg.pct_start⟩, none⟩
    ∧ oneCycleLRAt ⟨iters * epochs, cfg.LR, cfg.MOMS, cfg.div_factors, cfg.pct_start⟩ 0
        = cfg.LR / cfg.div_factors
    ∧ oneCycleLRAt ⟨iters * epochs, cfg.LR, cfg.MOMS, cfg.div_factors, cfg.pct_start⟩
        (cfg.pct_start * ((iters * epochs : ℕ) : ℚ)) = cfg.LR
    ∧ oneCycleLRAt ⟨iters * epochs, cfg.LR, cfg.MOMS, cfg.div_factors, cfg.pct_start⟩
        ((iters * epochs : ℕ) : ℚ) = cfg.LR / cfg.div_factors
    ∧ ∀ s : ℚ,
        (oneCycleMomAt ⟨iters * epochs, cfg.LR, cfg.MOMS, cfg.div_factors, cfg.pct_start⟩ s
            - cfg.MOMS.1) * (cfg.LR - cfg.LR / cfg.div_factors)
          = (cfg.MOMS.2 - cfg.MOMS.1)
            * (oneCycleLRAt ⟨iters * epochs, cfg.LR, cfg.MOMS, cfg.div_factors, cfg.pct_start⟩ s
                - cfg.LR / cfg.div_factors) := by
  have hTQ : (0 : ℚ) < ((iters * epochs : ℕ) : ℚ) := by exact_mod_cast hT
  have hpeak : 0 < cfg.pct_start * ((iters * epochs : ℕ) : ℚ) := mul_pos hp0 hTQ
  have hlt : cfg.pct_start * ((iters * epochs : ℕ) : ℚ) < ((iters * epochs : ℕ) : ℚ) := by
    calc cfg.pct_start * ((iters * epochs : ℕ) : ℚ)
        < 1 * ((iters * epochs : ℕ) : ℚ) := mul_lt_mul_of_pos_right hp1 hTQ
      _ = ((iters * epochs : ℕ) : ℚ) := one_mul _
  refine ⟨?_, ?_, ?_, ?_, ?_⟩
  · simp [build_scheduler, hname]
  · exact oneCycleLRAt_zero _ hpeak.le
  · exact oneCycleLRAt_peak _ hpeak
  · exact oneCycleLRAt_total _ hlt
  · intro s
    exact oneCycleMomAt_inverse_affine _ s

/-- Witness for C4: `iters = 10`, `epochs = 8`, the `adam_onecycle` sample
configuration, and the momentum relation evaluated at step `40`. -/
theorem build_scheduler_one_cycle_witness :
    build_scheduler (1/1000) 10 8 (-1) sampleOneCycleCfg
      = .ok ⟨.oneCycle ⟨80, sampleOneCycleCfg.LR, sampleOneCycleCfg.MOMS,
          sampleOneCycleCfg.div_factors, sampleOneCycleCfg.pct_start⟩, none⟩
    ∧ oneCycleLRAt ⟨80, sampleOneCycleCfg.LR, sampleOneCycleCfg.MOMS,
          sampleOneCycleCfg.div_factors, sampleOneCycleCfg.pct_start⟩ 0
        = sampleOneCycleCfg.LR / sampleOneCycleCfg.div_factors
    ∧ (oneCycleMomAt ⟨80, sampleOneCycleCfg.LR, sampleOneCycleCfg.MOMS,
          sampleOneCycleCfg.div_factors, sampleOneCycleCfg.pct_start⟩ 40
            - sampleOneCycleCfg.MOMS.1)
        * (sampleOneCycleCfg.LR - sampleOneCycleCfg.LR / sampleOneCycleCfg.div_factors)
      = (sampleOneCycleCfg.MOMS.2 - sampleOneCycleCfg.MOMS.1)
        * (oneCycleLRAt ⟨80, sampleOneCycleCfg.LR, sampleOneCycleCfg.MOMS,
            sampleOneCycleCfg.div_factors, sampleOneCycleCfg.pct_start⟩ 40
            - sampleOneCycleCfg.LR / sampleOneCycleCfg.div_factors) := by
  have h := build_scheduler_one_cycle (1/1000) 10 8 (-1) sampleOneCycleCfg rfl
    (by norm_num) (by norm_num [sampleOneCycleCfg]) (by norm_num [sampleOneCycleCfg])
  exact ⟨h.1, h.2.1, h.2.2.2.2 40⟩

/-- C5 (code bug): with warmup enabled and a non-one-cycle kind,
`build_scheduler` evaluates `len(total_iters_each_epoch)` on the integer
steps-per-epoch argument and fails with `TypeError` instead of building the
cosine warmup schedule; with warmup disabled (or kind `adam_onecycle`) the
warmup slot of the returned pair is `none`. -/
theorem build_scheduler_warmup_type_error :
    build_scheduler (1/1000) 10 80 (-1) sampleWarmupCfg
      = .error "TypeError: object of type int has no len()"
    ∧ build_scheduler (1/1000) 10 80 (-1) sampleCfg
      = .ok ⟨.lambdaLR (LambdaLR.init (1/1000) (lr_lbmd sampleCfg 80) (-1)), none⟩
    ∧ build_scheduler (1/1000) 10 80 (-1) sampleOneCycleCfg
      = .ok ⟨.oneCycle ⟨800, sampleOneCycleCfg.LR, sampleOneCycleCfg.MOMS,
          sampleOneCycleCfg.div_factors, sampleOneCycleCfg.pct_start⟩, none⟩ := by
  refine ⟨?_, ?_, ?_⟩ <;> rfl

/-- `insertByMtime` grows the list by one. -/
theorem length_insertByMtime (f : CkptFile) :
    ∀ l : List CkptFile, (insertByMtime f l).length = l.length + 1
  | [] => rfl
  | g :: gs => by
    simp only [insertByMtime]
    by_cases h : f.mtime ≤ g.mtime
    · simp [h]
    · simp [h, length_insertByMtime f gs]

/-- `sortByMtime` preserves length. -/
theorem length_sortByMtime :
    ∀ l : List CkptFile, (sortByMtime l).length = l.length
  | [] => rfl
  | f :: fs => by
    simp [sortByMtime, length_insertByMtime, length_sortByMtime fs]

/-- Sorting a list already sorted by ascending mtime is the identity. -/
theorem sortByMtime_of_sorted :
    ∀ l : List CkptFile, List.Chain' (fun a b => a.mtime ≤ b.mtime) l →
      sortByMtime l = l
  | [], _ => rfl
  | [f], _ => rfl
  | f :: g :: gs, h => by
    have hfg : f.mtime ≤ g.mtime := (List.chain'_cons.mp h).1
    have htail := (List.chain'_cons.mp h).2
    show insertByMtime f (sortByMtime (g :: gs)) = f :: g :: gs
    rw [sortByMtime_of_sorted (g :: gs) htail]
    simp only [insertByMtime, if_pos hfg]

/-- Folding checkpoint saves with rotation cap `N ≥ 1` over a write sequence
with strictly increasing mtimes, starting from an empty directory, retains
exactly the last `N` writes (all writes while fewer than `N` exist). -/
theorem foldl_rotate_keeps_last (N : ℕ) (hN : 1 ≤ N) :
    ∀ ws : List CkptFile, List.Chain' (fun a b => a.mtime < b.mtime) ws →
      List.foldl (ckptRotateSave N) [] ws = ws.drop (ws.length - N) := by
  intro ws
  induction ws using List.reverseRecOn with
  | nil => intro _; simp
  | append_singleton ws w ih =>
    intro hchain
    have hws : List.Chain' (fun a b => a.mtime < b.mtime) ws :=
      hchain.prefix (List.prefix_append ws [w])
    rw [List.foldl_append, List.foldl_cons, List.foldl_nil, ih hws]
    have hsorted : sortByMtime (ws.drop (ws.length - N)) = ws.drop (ws.length - N) :=
      sortByMtime_of_sorted _ ((hws.imp fun a b hab => le_of_lt hab).drop _)
    by_cases hlen : N ≤ ws.length
    · have hacc : (ws.drop (ws.length - N)).length = N := by
        rw [List.length_drop]
        omega
      simp only [ckptRotateSave, hsorted, hacc, if_pos (le_refl N)]
      rw [List.drop_drop, List.length_append, List.drop_append_eq_append_drop]
      have h1 : ws.length - N + (N - N + 1) = ws.length + [w].length - N := by
        simp only [List.length_cons, List.length_nil]
        omega
      have h2 : ws.length + [w].length - N - ws.length = 0 := by
        simp only [List.length_cons, List.length_nil]
        omega
      rw [h1, h2, List.drop_zero]
    · have hzero : ws.length - N = 0 := by omega
      rw [hzero, List.drop_zero] at hsorted ⊢
      simp only [ckptRotateSave, hsorted, if_neg hlen]
      have hzero2 : ws.length + [w].length - N = 0 := by
        simp only [List.length_cons, List.length_nil]
        omega
      rw [List.length_append, hzero2, List.drop_zero]

/-- C3: with retention cap `N ≥ 1`, a checkpoint save first deletes the
oldest `count - N + 1` files when `count ≥ N` files are present, every save
leaves at most `N` files, and writing a sequence of `M ≥ N` checkpoints (with
strictly increasing modification times) into an empty directory leaves
exactly the `N` most recently modified files. -/
theorem ckpt_retention (N : ℕ) (hN : 1 ≤ N) :
    (∀ (dir : List CkptFile) (new : CkptFile), N ≤ dir.length →
        ckptRotateSave N dir new
          = (sortByMtime dir).drop (dir.length - N + 1) ++ [new])
    ∧ (∀ (dir : List CkptFile) (new : CkptFile),
        (ckptRotateSave N dir new).length ≤ N)
    ∧ ∀ ws : List CkptFile, List.Chain' (fun a b => a.mtime < b.mtime) ws →
        N ≤ ws.length →
        List.foldl (ckptRotateSave N) [] ws = ws.drop (ws.length - N) := by
  refine ⟨?_, ?_, ?_⟩
  · intro dir new hlen
    simp only [ckptRotateSave, length_sortByMtime, if_pos hlen]
  · intro dir new
    by_cases hlen : N ≤ (sortByMtime dir).length
    · simp only [ckptRotateSave, if_pos hlen, List.length_append,
        List.length_drop, List.length_cons, List.length_nil]
      omega
    · rw [length_sortByMtime] at hlen
      simp only [ckptRotateSave, length_sortByMtime, if_neg (by omega : ¬ N ≤ dir.length),
        List.length_append, length_sortByMtime, List.length_cons, List.length_nil]
      omega
  · intro ws hchain _
    exact foldl_rotate_keeps_last N hN ws hchain

/-- Witness for C3: cap `N = 2`, three sequential writes, the two most
recent files remain. -/
theorem ckpt_retention_witness :
    List.foldl (ckptRotateSave 2) [] [ckA, ckB, ckC] = [ckB, ckC] := by
  have h := (ckpt_retention 2 (by norm_num)).2.2 [ckA, ckB, ckC]
    (by simp [ckA, ckB, ckC, List.chain'_cons]) (by norm_num)
  simpa using h

/-- Every run of the batch loop with a non-empty loader succeeds, processes
exactly the requested number of batches, and leaves the iterator position at
most `L`. -/
theorem epochLoop_completes (L : ℕ) (hL : 0 < L) :
    ∀ (t p r b : ℕ), p ≤ L →
      ∃ res, epochLoop L t p r b = .ok res ∧ res.batches = b + t ∧ res.pos ≤ L := by
  intro t
  induction t with
  | zero =>
    intro p r b hp
    exact ⟨⟨b, r, p⟩, rfl, by simp, hp⟩
  | succ t ih =>
    intro p r b hp
    by_cases hpL : p < L
    · obtain ⟨res, h1, h2, h3⟩ := ih (p + 1) r (b + 1) (by omega)
      refine ⟨res, ?_, by omega, h3⟩
      simp only [epochLoop, if_pos hpL]
      exact h1
    · obtain ⟨res, h1, h2, h3⟩ := ih 1 (r + 1) (b + 1) (by omega)
      refine ⟨res, ?_, by omega, h3⟩
      simp only [epochLoop, if_neg hpL, if_pos hL]
      exact h1

/-- C6: over a loader of length `L ≥ 1` whose iterator is not exhausted at
start (`p0 < L`), `train_one_epoch`'s batch loop raises no unhandled error
and completes its fixed batch count for every `total_it_each_epoch`, with
exhaustion handled by silent re-iteration; for `total_it_each_epoch = 20`,
loader length `7` and a fresh iterator, exactly `2` re-iterations occur. -/
theorem train_one_epoch_loader_completes (L total_it p0 : ℕ) (hL : 1 ≤ L)
    (hp0 : p0 < L) :
    (∃ res, train_one_epoch_loader L total_it p0 = .ok res
        ∧ res.batches = total_it)
    ∧ train_one_epoch_loader 7 20 0 = .ok ⟨20, 2, 6⟩ := by
  constructor
  · have hinit : (if total_it = L then 0 else p0) ≤ L := by
      by_cases h : total_it = L
      · simp [h]
      · simp only [if_neg h]
        omega
    obtain ⟨res, h1, h2, _⟩ :=
      epochLoop_completes L hL total_it (if total_it = L then 0 else p0) 0 0 hinit
    exact ⟨res, h1, by omega⟩
  · rfl

/-- Witness for C6: the concrete loader-exhaustion scenario. -/
theorem train_one_epoch_loader_completes_witness :
    train_one_epoch_loader 7 20 0 = .ok ⟨20, 2, 6⟩ :=
  (train_one_epoch_loader_completes 7 20 0 (by norm_num) (by norm_num)).2

/-- C9 (amended): console progress updates, the image writes and the
post-step scalar block happen only on rank 0, and every rank performs the
identical per-batch computation — but the pre-step `learning_rate` scalar
(lines 87-88) is written to the sink on every rank whenever the sink is
present: a non-zero rank's batch trace is exactly that optional scalar write
followed by the computation. -/
theorem batch_reporting_rank_gating (rank : ℕ) (tb : Bool) (cur_it : ℕ)
    (h : rank ≠ 0) :
    batchEvents rank tb cur_it
      = .ok ((if tb then [Event.addScalar "learning_rate"] else [])
          ++ computeEvents) := by
  simp [batchEvents, h]

/-- Witness for C9 (amended) at rank 1 with the sink present. -/
theorem batch_reporting_rank_gating_witness :
    batchEvents 1 true 0 = .ok (Event.addScalar "learning_rate" :: computeEvents) := by
  have h := batch_reporting_rank_gating 1 true 0 (by norm_num)
  simpa using h

/-- C9 counterexample: at `rank = 1` with the sink present, the one-batch
trace contains a sink write (the `learning_rate` scalar of lines 87-88), so
a rank other than 0 does perform a reporting side effect. -/
theorem nonzero_rank_scalar_write_counterexample :
    epochEvents 1 true 1 = .ok (Event.addScalar "learning_rate" :: computeEvents)
    ∧ Event.isSink (Event.addScalar "learning_rate") = true := by
  exact ⟨rfl, rfl⟩

/-- C10 (code bug): with the sink absent, rank 0 crashes on the unguarded
`tb_log.add_image` call at the first batch (`AttributeError`) instead of
completing with no sink calls; a non-zero rank does complete the epoch with
no sink calls at all. -/
theorem sink_absent_rank0_crash :
    epochEvents 0 false 1
      = .error "AttributeError: NoneType object has no attribute add_image"
    ∧ (epochEvents 1 false 3).map (List.filter Event.isSink) = .ok [] := by
  exact ⟨rfl, rfl⟩

end TrainUtils
